import Mathlib

/-!
Verification development for the `mdp.py` repository (generic MDP solver,
BettingGame instance, and ensemble-based Bayesian inference engine).

The Python source is shallowly embedded:
* numpy float arrays become total functions `ℕ → ℚ` (exact arithmetic; the
  array extents `ns`/`na` bound every index the program uses, so the values
  of the total functions outside those extents are never consulted);
* `np.exp`, `scipy.stats.beta.pdf` (used by policy extraction and the
  inference prior) are embedded over `ℝ` with `Real.exp` / `Real.rpow`;
* the unbounded `while True` loop of value iteration becomes a fuel-indexed
  function returning `Option`;
* CPython `is` comparisons between ints in `tHelper` / `isTerminal` are
  embedded as equality: every operand there lies in `[-5, 256]`, the CPython
  small-integer cache range, where `is` coincides with `==`.
-/

/-- Finite tabular MDP as held by `MDP.__init__`: `ns` states `0..ns-1`,
`na` actions `0..na-1`, reward vector `r` (indexed by state only) and
transition tensor `t` (state, action, next state). -/
structure MDP where
  ns : ℕ
  na : ℕ
  r : ℕ → ℚ
  t : ℕ → ℕ → ℕ → ℚ

/-- `self.discount = .95`, set once in `MDP.__init__` and never changed. -/
def MDP.discount (_ : MDP) : ℚ := 19 / 20

/-- `np.max` over the first `n` entries of a vector (rational version).
`np.max` of an empty array raises in numpy; the `n = 0` branch returns the
junk value `f 0` and is never reached by the program's calls (`n` is the
action or state count, positive in every constructed instance). -/
def rangeSupQ (n : ℕ) (f : ℕ → ℚ) : ℚ :=
  if h : 0 < n then (Finset.range n).sup' (Finset.nonempty_range_iff.mpr h.ne') f
  else f 0

/-- `np.dot(self.t[i][:][:], self.values)` evaluated at action `a`:
the expected (unDiscounted) next-state value `Σ_z t[i][a][z] * V[z]`. -/
def MDP.dotRow (m : MDP) (V : ℕ → ℚ) (i a : ℕ) : ℚ :=
  ∑ z in Finset.range m.ns, m.t i a z * V z

/-- The body of the value-iteration sweep at state `i`:
`self.values[i] = self.r[i] + np.max(self.discount * np.dot(self.t[i][:][:], self.values))`,
an in-place update of the value vector. -/
def MDP.updateState (m : MDP) (V : ℕ → ℚ) (i : ℕ) : ℕ → ℚ :=
  Function.update V i (m.r i + rangeSupQ m.na (fun a => m.discount * m.dotRow V i a))

/-- One sweep of value iteration: `for i in range(len(self.s)-1): ...`,
updating states `0, 1, ..., ns-2` in order, each reading the partially
updated vector (Gauss-Seidel style). -/
def MDP.sweep (m : MDP) (V : ℕ → ℚ) : ℕ → ℚ :=
  (List.range (m.ns - 1)).foldl m.updateState V

/-- `np.max(np.abs(self.values - oldValues))`: the max-norm distance between
two value vectors over all `ns` states. -/
def MDP.maxAbsDiff (m : MDP) (V W : ℕ → ℚ) : ℚ :=
  rangeSupQ m.ns (fun i => |V i - W i|)

/-- The `while True` loop of `MDP.valueIteration`, with fuel: sweep, then
stop (returning the swept vector) as soon as the max absolute change of the
whole sweep against the pre-sweep vector is `≤ epsilon`. `none` models
running out of fuel (the Python loop is unbounded). -/
def MDP.valueIterLoop (m : MDP) (epsilon : ℚ) : ℕ → (ℕ → ℚ) → Option (ℕ → ℚ)
  | 0, _ => none
  | fuel + 1, V =>
    let V' := m.sweep V
    if m.maxAbsDiff V' V ≤ epsilon then some V' else m.valueIterLoop epsilon fuel V'

/-- `MDP.valueIteration(self, epsilon = .1)`: start from the all-zero value
vector (`self.values = np.zeros(len(self.s))`) and loop until convergence. -/
def MDP.valueIteration (m : MDP) (epsilon : ℚ) (fuel : ℕ) : Option (ℕ → ℚ) :=
  m.valueIterLoop epsilon fuel (fun _ => 0)

/-- A call `self.valueIteration()` with the declared default `epsilon = .1`. -/
def MDP.valueIterationDefault (m : MDP) (fuel : ℕ) : Option (ℕ → ℚ) :=
  m.valueIteration (1/10) fuel

/-- `BettingGame.tHelper(self, x, y, z, pHeads)`: the transition probability
from cash `x` under bet `y` to cash `z`, written as the same `if`/`elif`
chain as the source.  The Python `is` tests are equality (small-int cache),
and Python's `x - y` agrees with truncated subtraction on the only branches
that reach it (`y > x` is already handled by the two preceding branches). -/
def BettingGame.tHelper (x y z : ℕ) (pHeads : ℚ) : ℚ :=
  if x + y = z ∧ y = 0 then 1
  else if y > x ∧ x ≠ z then 0
  else if y > x ∧ x = z then 1
  else if x - y = z then 1 - pHeads
  else if x + y = z then pHeads
  else if x + y > z ∧ z = 100 then pHeads
  else 0

/-- The transition tensor built by `BettingGame.setBettingGame`: the
`tHelper` list comprehension over all indices, followed by the loop that
overwrites every action row of the end-game states `100` and `0` with the
point distribution on the dead state `101`. -/
def BettingGame.tMatrix (pHeads : ℚ) (x y z : ℕ) : ℚ :=
  if x = 100 ∨ x = 0 then (if z = 101 then 1 else 0) else BettingGame.tHelper x y z pHeads

/-- The reward vector written by `setBettingGame`
(`r = np.zeros(101); r[0] = -10; r[100] = 100`), as a total function. -/
def BettingGame.rVec : ℕ → ℚ :=
  fun i => if i = 0 then -10 else if i = 100 then 100 else 0

/-- The state array `self.s = np.arange(102)` as a list (length matters for
the reward-coverage claim). -/
def BettingGame.sArr : List ℕ := List.range 102

/-- The action array `self.a = np.arange(101)` as a list. -/
def BettingGame.aArr : List ℕ := List.range 101

/-- The reward array `self.r` as a list with its true extent:
`np.zeros(101)` followed by the two point writes. -/
def BettingGame.rArr : List ℚ :=
  ((List.replicate 101 (0 : ℚ)).set 0 (-10)).set 100 100

/-- The MDP assembled by `BettingGame.setBettingGame(pHeads)`:
102 states, 101 actions, the betting rewards and transition tensor. -/
def bettingMdp (pHeads : ℚ) : MDP :=
  { ns := 102, na := 101, r := BettingGame.rVec, t := BettingGame.tMatrix pHeads }

/-- `BettingGame.isTerminal(self, state)`: `True if state is 101 else False`. -/
def BettingGame.isTerminal (state : ℕ) : Bool := state == 101

/-- C1: the transition row `T(s, a, ·)` of the constructed BettingGame is
claimed to sum to 1 for every state and action.  Evaluating the code at the
failing input `pHeads = 1/2`, `s = 99`, `a = 2` shows the row sums to `3/2`:
`tHelper` pays the win probability twice, once at `z = 101` through the
`x + y is z` branch and once at `z = 100` through the
`x + y > z and z is 100` edge-case branch, on top of `1 - pHeads` at
`z = 97`. -/
theorem betting_t_row_sum_violation :
    (∑ z in Finset.range 102, (bettingMdp (1/2)).t 99 2 z) = 3/2
    ∧ BettingGame.tHelper 99 2 97 (1/2) = 1/2
    ∧ BettingGame.tHelper 99 2 100 (1/2) = 1/2
    ∧ BettingGame.tHelper 99 2 101 (1/2) = 1/2 := by
  refine ⟨?_, ?_, ?_, ?_⟩ <;>
    norm_num [Finset.sum_range_succ, bettingMdp, BettingGame.tMatrix, BettingGame.tHelper]

/-- `np.max` over the first `n` entries of a real vector (see `rangeSupQ`). -/
noncomputable def rangeSupR (n : ℕ) (f : ℕ → ℝ) : ℝ :=
  if h : 0 < n then (Finset.range n).sup' (Finset.nonempty_range_iff.mpr h.ne') f
  else f 0

/-- The action-value vector computed by `MDP.extractPolicy` at state `i`:
`state_policy = self.r[i] + self.discount * np.dot(self.t[i][:][:], self.values)`,
i.e. `Q(i, a) = r(i) + γ * Σ_z t[i][a][z] * V[z]`, over the reals since the
subsequent softmax uses `np.exp`. -/
noncomputable def MDP.qRow (m : MDP) (V : ℕ → ℝ) (i a : ℕ) : ℝ :=
  (m.r i : ℝ) + (m.discount : ℝ) * ∑ z in Finset.range m.ns, (m.t i a z : ℝ) * V z

/-- `MDP.extractPolicy(self, tau=.1)`: the policy matrix starts as
`np.zeros([ns, na])`; for each `i in range(ns-1)` the row becomes the
numerically stabilised softmax of the action-value vector
(`state_policy -= np.max(state_policy)`, then `np.exp(state_policy / tau)`,
then division by the row sum).  Rows not written by the loop stay zero. -/
noncomputable def MDP.extractPolicy (m : MDP) (V : ℕ → ℝ) (tau : ℝ) : ℕ → ℕ → ℝ :=
  fun i a =>
    if i < m.ns - 1 then
      Real.exp ((m.qRow V i a - rangeSupR m.na (m.qRow V i)) / tau) /
        ∑ b in Finset.range m.na, Real.exp ((m.qRow V i b - rangeSupR m.na (m.qRow V i)) / tau)
    else 0

/-- A call `self.extractPolicy()` with the declared default `tau = .1`. -/
noncomputable def MDP.extractPolicyDefault (m : MDP) (V : ℕ → ℝ) : ℕ → ℕ → ℝ :=
  m.extractPolicy V (1/10)

/-- The specification's softmax formula, stated on its own for comparison
with the code: `Π(s,a) = exp(q'(a)/τ) / Σ_b exp(q'(b)/τ)` where
`q' = Q(s,·) − max_b Q(s,b)`. -/
noncomputable def softmaxSpecRow (na : ℕ) (q : ℕ → ℝ) (tau : ℝ) (a : ℕ) : ℝ :=
  Real.exp ((q a - rangeSupR na q) / tau) /
    ∑ b in Finset.range na, Real.exp ((q b - rangeSupR na q) / tau)

lemma extractPolicy_row_sum (m : MDP) (V : ℕ → ℝ) (tau : ℝ) (i : ℕ)
    (hna : 0 < m.na) (hi : i < m.ns - 1) :
    ∑ a in Finset.range m.na, m.extractPolicy V tau i a = 1 := by
  have hpos : 0 < ∑ b in Finset.range m.na,
      Real.exp ((m.qRow V i b - rangeSupR m.na (m.qRow V i)) / tau) :=
    Finset.sum_pos (fun b _ => Real.exp_pos _) (Finset.nonempty_range_iff.mpr hna.ne')
  simp only [MDP.extractPolicy, if_pos hi]
  rw [← Finset.sum_div, div_self hpos.ne']

/-- C7: for every state of the BettingGame that `extractPolicy` processes
(equivalently, every non-terminal state — the processed indices
`0..100` are exactly the states `isTerminal` rejects), the policy row is
the numerically stabilised softmax of the action-value vector
`Q(s,a) = r(s) + γ Σ_z T(s,a,z) V(z)` (maximum subtracted before
exponentiation), and the row sums to 1. -/
theorem extractPolicy_softmax_row (p : ℚ) (V : ℕ → ℝ) (tau : ℝ) (i : ℕ)
    (hi : i < 102) (hterm : BettingGame.isTerminal i = false) :
    (∀ a, (bettingMdp p).extractPolicy V tau i a
        = softmaxSpecRow 101 ((bettingMdp p).qRow V i) tau a)
    ∧ (∑ a in Finset.range 101, (bettingMdp p).extractPolicy V tau i a) = 1 := by
  have hne : i ≠ 101 := by simpa [BettingGame.isTerminal] using hterm
  have hi' : i < (bettingMdp p).ns - 1 := by
    simp only [bettingMdp]
    omega
  refine ⟨fun a => ?_, ?_⟩
  · simp only [MDP.extractPolicy, softmaxSpecRow, if_pos hi']
    rfl
  · exact extractPolicy_row_sum _ _ _ _ (by norm_num [bettingMdp]) hi'

/-- Witness for `extractPolicy_softmax_row` at `pHeads = 1/2`, the all-zero
value vector, `tau = 1`, state `i = 0`. -/
theorem extractPolicy_softmax_row_witness :
    (0 < 102 ∧ BettingGame.isTerminal 0 = false)
    ∧ ((∀ a, (bettingMdp (1/2)).extractPolicy (fun _ => 0) 1 0 a
          = softmaxSpecRow 101 ((bettingMdp (1/2)).qRow (fun _ => 0) 0) 1 a)
      ∧ (∑ a in Finset.range 101,
          (bettingMdp (1/2)).extractPolicy (fun _ => 0) 1 0 a) = 1) :=
  ⟨⟨by decide, by decide⟩,
    extractPolicy_softmax_row (1/2) (fun _ => 0) 1 0 (by decide) (by decide)⟩

lemma foldl_updateState_not_mem (m : MDP) (i : ℕ) :
    ∀ (l : List ℕ) (V : ℕ → ℚ), i ∉ l → (l.foldl m.updateState V) i = V i := by
  intro l
  induction l with
  | nil => intro V _; rfl
  | cons j l ih =>
    intro V h
    rw [List.foldl_cons, ih _ (fun hm => h (List.mem_cons_of_mem _ hm))]
    have hij : i ≠ j := fun e => h (by simp [e])
    simp [MDP.updateState, Function.update_noteq hij]

lemma list_range_split (a b : ℕ) :
    List.range (a + b) = List.range a ++ (List.range b).map (a + ·) := by
  induction b with
  | zero => simp
  | succ b ih =>
    rw [show a + (b + 1) = (a + b) + 1 from rfl, List.range_succ, ih, List.range_succ,
      List.map_append, ← List.append_assoc]
    simp

/-- The Gauss-Seidel shape of one sweep: the value the sweep leaves at a
swept state `i` is the Bellman update computed from the vector whose
entries below `i` have already been updated in this sweep. -/
lemma sweep_gauss_seidel (m : MDP) (V : ℕ → ℚ) (i : ℕ) (hi : i < m.ns - 1) :
    m.sweep V i =
      m.r i + rangeSupQ m.na
        (fun a => m.discount * m.dotRow ((List.range i).foldl m.updateState V) i a) := by
  have hsplit : m.ns - 1 = i + ((m.ns - 1 - i - 1) + 1) := by omega
  have hranges : List.range (m.ns - 1) =
      List.range i ++ ((List.range ((m.ns - 1 - i - 1) + 1)).map (i + ·)) := by
    rw [← list_range_split, ← hsplit]
  have hnot : i ∉ ((List.range (m.ns - 1 - i - 1)).map Nat.succ).map (i + ·) := by
    intro hmem
    simp only [List.mem_map, List.mem_range] at hmem
    obtain ⟨j, ⟨k, _, hk⟩, hj⟩ := hmem
    omega
  rw [MDP.sweep, hranges, List.foldl_append, List.range_succ_eq_map, List.map_cons,
    List.foldl_cons, foldl_updateState_not_mem m i _ _ hnot]
  simp [MDP.updateState]

lemma rangeSupQ_mul_left (n : ℕ) (hn : 0 < n) (c : ℚ) (hc : 0 ≤ c) (f : ℕ → ℚ) :
    rangeSupQ n (fun a => c * f a) = c * rangeSupQ n f := by
  simp only [rangeSupQ, dif_pos hn]
  exact (Finset.comp_sup'_eq_sup'_comp _ (fun x => c * x)
    (fun x y => mul_max_of_nonneg x y hc)).symm

/-- C2: `valueIteration` starts from the all-zero vector; each swept state
is updated in place (Gauss-Seidel: the update at `i` reads the vector whose
entries below `i` were just rewritten) to
`r(i) + γ * max_a Σ_z T(i,a,z) V(z)`; and the loop stops exactly when the
maximum absolute change of the whole sweep against the pre-sweep vector is
`≤ ε`, where a plain `self.valueIteration()` call uses the declared default
`ε = .1`. -/
theorem valueIteration_gauss_seidel (m : MDP) (V : ℕ → ℚ) (i fuel : ℕ)
    (hna : 0 < m.na) (hi : i < m.ns - 1) :
    m.valueIterationDefault fuel = m.valueIterLoop (1/10) fuel (fun _ => 0)
    ∧ m.valueIterLoop (1/10) (fuel + 1) V =
        (if m.maxAbsDiff (m.sweep V) V ≤ 1/10 then some (m.sweep V)
          else m.valueIterLoop (1/10) fuel (m.sweep V))
    ∧ m.sweep V i =
        m.r i + m.discount *
          rangeSupQ m.na (fun a => m.dotRow ((List.range i).foldl m.updateState V) i a) := by
  refine ⟨rfl, by simp [MDP.valueIterLoop], ?_⟩
  rw [sweep_gauss_seidel m V i hi, rangeSupQ_mul_left m.na hna m.discount (by norm_num [MDP.discount])]

/-- A 2-state, 2-action MDP used to instantiate the generic solver
theorems on concrete data. -/
def toyMdp : MDP :=
  { ns := 2, na := 2, r := fun _ => 0, t := fun _ a z => if z = a then 1 else 0 }

/-- Witness for `valueIteration_gauss_seidel`: the toy MDP, the all-zero
vector, state `0`, one unit of fuel. -/
theorem valueIteration_gauss_seidel_witness :
    (0 < toyMdp.na ∧ 0 < toyMdp.ns - 1)
    ∧ (toyMdp.valueIterationDefault 1 = toyMdp.valueIterLoop (1/10) 1 (fun _ => 0)
      ∧ toyMdp.valueIterLoop (1/10) (1 + 1) (fun _ => 0) =
          (if toyMdp.maxAbsDiff (toyMdp.sweep (fun _ => 0)) (fun _ => 0) ≤ 1/10 then
            some (toyMdp.sweep (fun _ => 0))
          else toyMdp.valueIterLoop (1/10) 1 (toyMdp.sweep (fun _ => 0)))
      ∧ toyMdp.sweep (fun _ => 0) 0 =
          toyMdp.r 0 + toyMdp.discount *
            rangeSupQ toyMdp.na
              (fun a => toyMdp.dotRow ((List.range 0).foldl toyMdp.updateState (fun _ => 0)) 0 a)) :=
  ⟨⟨by norm_num [toyMdp], by norm_num [toyMdp]⟩,
    valueIteration_gauss_seidel toyMdp (fun _ => 0) 0 1
      (by norm_num [toyMdp]) (by norm_num [toyMdp])⟩

/-- `BettingGame.__init__(self, pHeads=.5, epsilon=.01, tau=1)`: builds the
betting MDP, then calls `self.valueIteration()` and `self.extractPolicy()`
with no arguments, so its own `epsilon` and `tau` parameters go unused.
Returns the solved value vector and policy (`none` when the value-iteration
fuel runs out). -/
noncomputable def BettingGame.make (pHeads _epsilon _tau : ℚ) (fuel : ℕ) :
    Option ((ℕ → ℚ) × (ℕ → ℕ → ℝ)) :=
  ((bettingMdp pHeads).valueIterationDefault fuel).map
    (fun V => (V, (bettingMdp pHeads).extractPolicyDefault (fun z => (V z : ℝ))))

/-- C10: the `epsilon` and `tau` parameters accepted by the BettingGame
constructor are dead: the solved model is the same for any two choices of
them, and equals solving with `valueIteration`'s own default `ε = 1/10` and
`extractPolicy`'s own default `τ = 1/10`. -/
theorem bettingGame_ignores_epsilon_tau (pHeads e₁ t₁ e₂ t₂ : ℚ) (fuel : ℕ) :
    BettingGame.make pHeads e₁ t₁ fuel = BettingGame.make pHeads e₂ t₂ fuel
    ∧ BettingGame.make pHeads e₁ t₁ fuel =
        ((bettingMdp pHeads).valueIteration (1/10) fuel).map
          (fun V => (V, (bettingMdp pHeads).extractPolicy (fun z => (V z : ℝ)) (1/10))) :=
  ⟨rfl, rfl⟩

lemma rangeSupQ_const (n : ℕ) (c : ℚ) : rangeSupQ n (fun _ => c) = c := by
  rcases Nat.eq_zero_or_pos n with h | h
  · simp [rangeSupQ, h]
  · simp [rangeSupQ, dif_pos h, Finset.sup'_const]

lemma betting_onehot_dot (p : ℚ) (x : ℕ) (hx : x = 100 ∨ x = 0) (W : ℕ → ℚ) (a : ℕ) :
    (bettingMdp p).dotRow W x a = W 101 := by
  simp only [MDP.dotRow, bettingMdp, BettingGame.tMatrix, if_pos hx, ite_mul, one_mul, zero_mul]
  rw [Finset.sum_ite_eq' (Finset.range 102) 101 W]
  simp

/-- C3 counterexample: per `isTerminal` the states 0 and 100 are not
terminal, state 100 is recomputed by the value-iteration sweep (its entry
moves from 0 to 100 on the first sweep from the zero vector), and state 100
receives a policy row from `extractPolicy` (the row sums to 1). -/
theorem terminal_states_cex :
    BettingGame.isTerminal 100 = false
    ∧ (bettingMdp (1/2)).sweep (fun _ => 0) 100 = 100
    ∧ (∑ a in Finset.range 101,
        (bettingMdp (1/2)).extractPolicy (fun _ => 0) 1 100 a) = 1 := by
  refine ⟨by decide, ?_, ?_⟩
  · rw [sweep_gauss_seidel (bettingMdp (1/2)) (fun _ => 0) 100 (by norm_num [bettingMdp])]
    have hW : ((List.range 100).foldl (bettingMdp (1/2)).updateState (fun _ => 0)) 101 = 0 :=
      foldl_updateState_not_mem _ 101 _ _ (by simp)
    have hdot : (fun a => (bettingMdp (1/2)).discount *
        (bettingMdp (1/2)).dotRow ((List.range 100).foldl (bettingMdp (1/2)).updateState (fun _ => 0)) 100 a)
        = fun _ => 0 := by
      funext a
      rw [betting_onehot_dot (1/2) 100 (Or.inl rfl), hW, mul_zero]
    rw [hdot, rangeSupQ_const]
    norm_num [bettingMdp, BettingGame.rVec]
  · exact extractPolicy_row_sum _ _ _ _ (by norm_num [bettingMdp]) (by norm_num [bettingMdp])

/-- C3 amended: the unique terminal state of the BettingGame per
`isTerminal` is the dead state 101; it alone is excluded from the
value-iteration backup loop (the sweep never rewrites index 101) and it
alone receives no policy row from `extractPolicy` (its row is all zeros).
The boundary states 0 and 100 are swept and do get policy rows; their
transition rows are the ones redirected to the dead state. -/
theorem terminal_handling (p : ℚ) (W : ℕ → ℚ) (V : ℕ → ℝ) (tau : ℝ) (a z : ℕ) :
    BettingGame.isTerminal 101 = true
    ∧ BettingGame.isTerminal 0 = false
    ∧ BettingGame.isTerminal 100 = false
    ∧ (bettingMdp p).sweep W 101 = W 101
    ∧ (bettingMdp p).extractPolicy V tau 101 a = 0
    ∧ 0 ∈ List.range ((bettingMdp p).ns - 1)
    ∧ 100 ∈ List.range ((bettingMdp p).ns - 1)
    ∧ 101 ∉ List.range ((bettingMdp p).ns - 1)
    ∧ (bettingMdp p).t 0 a z = (if z = 101 then 1 else 0)
    ∧ (bettingMdp p).t 100 a z = (if z = 101 then 1 else 0) := by
  refine ⟨rfl, rfl, rfl, ?_, ?_, ?_, ?_, ?_, ?_, ?_⟩
  · exact foldl_updateState_not_mem _ 101 _ _ (by simp [bettingMdp])
  · simp [MDP.extractPolicy, bettingMdp]
  · simp [bettingMdp]
  · simp [bettingMdp]
  · simp [bettingMdp]
  · simp [bettingMdp, BettingGame.tMatrix]
  · simp [bettingMdp, BettingGame.tMatrix]

lemma rangeSupR_two (f : ℕ → ℝ) : rangeSupR 2 f = max (f 0) (f 1) := by
  rw [rangeSupR, dif_pos (by norm_num)]
  apply le_antisymm
  · refine Finset.sup'_le _ _ ?_
    intro b hb
    simp only [Finset.mem_range] at hb
    interval_cases b
    · exact le_max_left _ _
    · exact le_max_right _ _
  · exact max_le (Finset.le_sup' f (by simp)) (Finset.le_sup' f (by simp))

/-- C8 counterexample: on a concrete 2-action MDP and value vector with
action values `(0, -1)`, the policy entry produced by a default
`extractPolicy` call differs from the policy entry produced with `τ = 1`:
the default temperature is `.1`, not 1. -/
theorem extractPolicy_default_tau_cex :
    toyMdp.extractPolicyDefault (fun z => if z = 1 then -(20/19 : ℝ) else 0) 0 0
      ≠ toyMdp.extractPolicy (fun z => if z = 1 then -(20/19 : ℝ) else 0) 1 0 0 := by
  have hq0 : toyMdp.qRow (fun z => if z = 1 then -(20/19 : ℝ) else 0) 0 0 = 0 := by
    norm_num [MDP.qRow, toyMdp, MDP.discount, Finset.sum_range_succ]
  have hq1 : toyMdp.qRow (fun z => if z = 1 then -(20/19 : ℝ) else 0) 0 1 = -1 := by
    norm_num [MDP.qRow, toyMdp, MDP.discount, Finset.sum_range_succ]
  have hmax : rangeSupR toyMdp.na (toyMdp.qRow (fun z => if z = 1 then -(20/19 : ℝ) else 0) 0) = 0 := by
    rw [show toyMdp.na = 2 from rfl, rangeSupR_two, hq0, hq1]
    norm_num
  have hform : ∀ tau : ℝ,
      toyMdp.extractPolicy (fun z => if z = 1 then -(20/19 : ℝ) else 0) tau 0 0
        = Real.exp 0 / (Real.exp 0 + Real.exp (-1 / tau)) := by
    intro tau
    rw [MDP.extractPolicy]
    rw [if_pos (by norm_num [toyMdp])]
    rw [show toyMdp.na = 2 from rfl] at hmax ⊢
    rw [Finset.sum_range_succ, Finset.sum_range_succ, Finset.sum_range_zero, hmax, hq0, hq1]
    norm_num
  rw [MDP.extractPolicyDefault, hform, hform]
  have h10 : (-1 : ℝ) / (1/10) = -10 := by norm_num
  rw [h10, div_one, Real.exp_zero]
  intro h
  rw [div_eq_div_iff (by positivity) (by positivity)] at h
  have : Real.exp (-1) = Real.exp (-10) := by linarith
  have := Real.exp_eq_exp.mp this
  norm_num at this

/-- C8 amended: the default temperature of `extractPolicy` is `τ = .1`:
a call without a temperature argument computes, at every processed state,
the numerically stabilised softmax of the action values with `τ = 1/10`. -/
theorem extractPolicy_default_tau (m : MDP) (V : ℕ → ℝ) (i : ℕ) (hi : i < m.ns - 1) :
    (∀ a, m.extractPolicyDefault V i a = softmaxSpecRow m.na (m.qRow V i) (1/10) a)
    ∧ m.extractPolicyDefault V = m.extractPolicy V (1/10) :=
  ⟨fun a => by simp only [MDP.extractPolicyDefault, MDP.extractPolicy, softmaxSpecRow, if_pos hi],
    rfl⟩

/-- Witness for `extractPolicy_default_tau` at the toy MDP, zero values,
state 0. -/
theorem extractPolicy_default_tau_witness :
    (0 < toyMdp.ns - 1)
    ∧ ((∀ a, toyMdp.extractPolicyDefault (fun _ => 0) 0 a
          = softmaxSpecRow toyMdp.na (toyMdp.qRow (fun _ => 0) 0) (1/10) a)
      ∧ toyMdp.extractPolicyDefault (fun _ => 0) = toyMdp.extractPolicy (fun _ => 0) (1/10)) :=
  ⟨by norm_num [toyMdp],
    extractPolicy_default_tau toyMdp (fun _ => 0) 0 (by norm_num [toyMdp])⟩

/-- C9 counterexample: the dead state 101 is an element of the state array
`s = np.arange(102)`, but the reward array `r = np.zeros(101)` has only 101
entries, so it has no entry at index 101. -/
theorem reward_missing_dead_state :
    101 ∈ BettingGame.sArr
    ∧ BettingGame.rArr.length = 101
    ∧ ¬(101 < BettingGame.rArr.length) := by
  refine ⟨?_, ?_, ?_⟩ <;> simp [BettingGame.sArr, BettingGame.rArr]

/-- C9 amended: the reward array has an entry for every state in the state
array except the sentinel dead state 101: `len(r) = 101` while
`len(s) = 102`. -/
theorem reward_defined_except_dead (s : ℕ) (hs : s ∈ BettingGame.sArr) (hne : s ≠ 101) :
    s < BettingGame.rArr.length
    ∧ BettingGame.sArr.length = 102
    ∧ BettingGame.rArr.length = 101 := by
  simp only [BettingGame.sArr, List.mem_range] at hs
  refine ⟨?_, by simp [BettingGame.sArr], by simp [BettingGame.rArr]⟩
  have : BettingGame.rArr.length = 101 := by simp [BettingGame.rArr]
  omega

/-- Witness for `reward_defined_except_dead` at state 5. -/
theorem reward_defined_except_dead_witness :
    (5 ∈ BettingGame.sArr ∧ (5 : ℕ) ≠ 101)
    ∧ (5 < BettingGame.rArr.length
      ∧ BettingGame.sArr.length = 102
      ∧ BettingGame.rArr.length = 101) :=
  ⟨⟨by decide, by decide⟩, reward_defined_except_dead 5 (by decide) (by decide)⟩

/-- `np.arange(0, 1.01, .01)` in `buildBiasEngine`: the 101 bias hypotheses
at which the ensemble of BettingGame instances is constructed and solved
(`self.sims.append(BettingGame(i))`).  The `i`-th point is `i/100`,
starting at 0. -/
def InferenceMachine.simsPHeads (i : ℕ) : ℚ := i / 100

/-- `np.linspace(.01, 1.0, 101)`: the grid used by `inferPosterior` for the
prior, by `plotDistributions` for all three curves and by
`expectedPosterior` for the abscissae.  The `i`-th point is
`.01 + i * (1.0 - .01)/100`. -/
def InferenceMachine.inferGrid (i : ℕ) : ℚ := 1/100 + 99 * i / 10000

/-- `scipy.stats.beta.pdf(x, a, b)` on its support `[0, 1]`:
`x^(a-1) * (1-x)^(b-1) / B(a, b)` with `B(a, b) = Γ(a)Γ(b)/Γ(a+b)`. -/
noncomputable def betaPdf (a b x : ℝ) : ℝ :=
  x ^ (a - 1) * (1 - x) ^ (b - 1) / (Real.Gamma a * Real.Gamma b / Real.Gamma (a + b))

/-- The un-normalised prior of `inferPosterior`:
`beta.pdf(np.linspace(.01, 1.0, 101), 1.9, 1.9)`. -/
noncomputable def InferenceMachine.priorUnnorm (i : ℕ) : ℝ :=
  betaPdf (19/10) (19/10) ((InferenceMachine.inferGrid i : ℚ) : ℝ)

/-- `self.prior /= self.prior.sum()`: the L1-normalised Beta(1.9, 1.9)
prior over the 101 grid points. -/
noncomputable def InferenceMachine.prior (i : ℕ) : ℝ :=
  InferenceMachine.priorUnnorm i / ∑ j in Finset.range 101, InferenceMachine.priorUnnorm j

/-- `InferenceMachine.inferPosterior`:
`self.posterior = self.likelihood * self.prior` (elementwise), then
`self.posterior /= self.posterior.sum()`.  There is no degeneracy check in
the source; a zero sum flows into the division (numpy: a NaN vector; in
this exact embedding, division by zero). -/
noncomputable def InferenceMachine.inferPosterior (likelihood : ℕ → ℝ) (i : ℕ) : ℝ :=
  likelihood i * InferenceMachine.prior i /
    ∑ j in Finset.range 101, likelihood j * InferenceMachine.prior j

/-- `InferenceMachine.expectedPosterior`: the loop
`expectation += self.posterior[i] * x[i]` with `x = np.linspace(.01, 1.0, 101)`. -/
noncomputable def InferenceMachine.expectedPosterior (posterior : ℕ → ℝ) : ℝ :=
  ∑ i in Finset.range 101, posterior i * ((InferenceMachine.inferGrid i : ℚ) : ℝ)

lemma betaConst_pos :
    0 < Real.Gamma (19/10) * Real.Gamma (19/10) / Real.Gamma (19/10 + 19/10) :=
  div_pos (mul_pos (Real.Gamma_pos_of_pos (by norm_num)) (Real.Gamma_pos_of_pos (by norm_num)))
    (Real.Gamma_pos_of_pos (by norm_num))

lemma betaPdf_nonneg (x : ℝ) (h0 : 0 ≤ x) (h1 : x ≤ 1) : 0 ≤ betaPdf (19/10) (19/10) x :=
  div_nonneg (mul_nonneg (Real.rpow_nonneg h0 _) (Real.rpow_nonneg (by linarith) _))
    betaConst_pos.le

lemma betaPdf_pos (x : ℝ) (h0 : 0 < x) (h1 : x < 1) : 0 < betaPdf (19/10) (19/10) x :=
  div_pos (mul_pos (Real.rpow_pos_of_pos h0 _) (Real.rpow_pos_of_pos (by linarith) _))
    betaConst_pos

lemma betaPdf_at_one : betaPdf (19/10) (19/10) 1 = 0 := by
  rw [betaPdf, sub_self, Real.zero_rpow (by norm_num), mul_zero, zero_div]

lemma inferGrid_100 : InferenceMachine.inferGrid 100 = 1 := by
  norm_num [InferenceMachine.inferGrid]

lemma priorUnnorm_nonneg (i : ℕ) (hi : i ≤ 100) : 0 ≤ InferenceMachine.priorUnnorm i := by
  refine betaPdf_nonneg _ ?_ ?_
  · have : (0:ℚ) ≤ InferenceMachine.inferGrid i := by
      rw [InferenceMachine.inferGrid]; positivity
    exact_mod_cast this
  · have : InferenceMachine.inferGrid i ≤ 1 := by
      rw [InferenceMachine.inferGrid]
      have : (i:ℚ) ≤ 100 := by exact_mod_cast hi
      linarith
    exact_mod_cast this

lemma priorUnnorm_zero_pos : 0 < InferenceMachine.priorUnnorm 0 := by
  refine betaPdf_pos _ ?_ ?_ <;> norm_num [InferenceMachine.inferGrid]

lemma priorUnnorm_100_eq_zero : InferenceMachine.priorUnnorm 100 = 0 := by
  rw [InferenceMachine.priorUnnorm, inferGrid_100]
  exact_mod_cast betaPdf_at_one

lemma sum_priorUnnorm_pos : 0 < ∑ j in Finset.range 101, InferenceMachine.priorUnnorm j := by
  refine Finset.sum_pos' ?_ ⟨0, by simp, priorUnnorm_zero_pos⟩
  intro j hj
  exact priorUnnorm_nonneg j (by simpa using Nat.lt_succ_iff.mp (Finset.mem_range.mp hj))

lemma prior_100_eq_zero : InferenceMachine.prior 100 = 0 := by
  rw [InferenceMachine.prior, priorUnnorm_100_eq_zero, zero_div]

lemma sum_prior_eq_one : ∑ j in Finset.range 101, InferenceMachine.prior j = 1 := by
  simp only [InferenceMachine.prior]
  rw [← Finset.sum_div, div_self sum_priorUnnorm_pos.ne']

/-- C4 counterexample: a likelihood vector that is not all-zero (it is 1 at
grid index 100, the hypothesis θ = 1.0) yields a posterior that does not
sum to 1, because the Beta(1.9, 1.9) prior density vanishes at θ = 1.0, so
the elementwise product is identically zero and the normalisation divides
by zero (NaN in the floating-point source; 0 in this exact embedding). -/
theorem inferPosterior_onehot_cex :
    (fun j : ℕ => if j = 100 then (1:ℝ) else 0) 100 ≠ 0
    ∧ (∑ i in Finset.range 101,
        InferenceMachine.inferPosterior (fun j => if j = 100 then (1:ℝ) else 0) i) ≠ 1 := by
  refine ⟨by norm_num, ?_⟩
  have hsum : (∑ j in Finset.range 101,
      (if j = 100 then (1:ℝ) else 0) * InferenceMachine.prior j) = 0 := by
    rw [Finset.sum_eq_single 100]
    · rw [if_pos rfl, one_mul, prior_100_eq_zero]
    · intro b _ hb
      rw [if_neg hb, zero_mul]
    · intro h
      exact absurd (by norm_num) h
  simp only [InferenceMachine.inferPosterior, hsum, div_zero, Finset.sum_const_zero]
  norm_num

/-- C4 amended: `inferPosterior` computes the posterior as the elementwise
product of the likelihood and the prior, L1-normalised, so the posterior
sums to 1 for every likelihood whose elementwise product with the prior is
not all-zero (the prior is positive at every grid point except θ = 1.0,
where the Beta(1.9, 1.9) density vanishes). -/
theorem inferPosterior_normalised (L : ℕ → ℝ)
    (h : (∑ j in Finset.range 101, L j * InferenceMachine.prior j) ≠ 0) :
    (∀ i, InferenceMachine.inferPosterior L i
        = L i * InferenceMachine.prior i /
            ∑ j in Finset.range 101, L j * InferenceMachine.prior j)
    ∧ (∑ i in Finset.range 101, InferenceMachine.inferPosterior L i) = 1 := by
  refine ⟨fun i => rfl, ?_⟩
  simp only [InferenceMachine.inferPosterior]
  rw [← Finset.sum_div, div_self h]

/-- Witness for `inferPosterior_normalised`: the all-ones likelihood, whose
product with the prior sums to 1. -/
theorem inferPosterior_normalised_witness :
    (∑ j in Finset.range 101, (fun _ => (1:ℝ)) j * InferenceMachine.prior j) ≠ 0
    ∧ (∑ i in Finset.range 101,
        InferenceMachine.inferPosterior (fun _ => (1:ℝ)) i) = 1 :=
  have h : (∑ j in Finset.range 101, (fun _ => (1:ℝ)) j * InferenceMachine.prior j) ≠ 0 := by
    simp only [one_mul]
    rw [sum_prior_eq_one]
    norm_num
  ⟨h, (inferPosterior_normalised (fun _ => 1) h).2⟩

/-- C6: with an all-zero likelihood, `inferPosterior` raises nothing — the
function is total, the normalising sum is zero, and the division produces
an invalid "posterior" (the zero vector here; NaNs in numpy) whose entries
sum to 0, not 1.  No `UnobservableEvidence` (or any other error path)
exists anywhere in the source. -/
theorem inferPosterior_degenerate_no_error :
    (∀ i, InferenceMachine.inferPosterior (fun _ => 0) i = 0)
    ∧ (∑ i in Finset.range 101,
        InferenceMachine.inferPosterior (fun _ => 0) i) = 0 := by
  constructor <;> simp [InferenceMachine.inferPosterior]

/-- C5 counterexample: the grid at which the ensemble of MDPs is built
(`np.arange(0, 1.01, .01)`, i-th point `i/100`) differs at index 0 from the
grid used by the prior, the posterior plot and the posterior expectation
(`np.linspace(.01, 1.0, 101)`, i-th point `.01 + .0099 i`): the first
ensemble member is solved for bias 0.0 while every inference-side vector
treats index 0 as bias 0.01. -/
theorem inference_grids_differ_cex :
    InferenceMachine.simsPHeads 0 = 0
    ∧ InferenceMachine.inferGrid 0 = 1/100
    ∧ InferenceMachine.simsPHeads 0 ≠ InferenceMachine.inferGrid 0 := by
  norm_num [InferenceMachine.simsPHeads, InferenceMachine.inferGrid]

/-- C5 amended: the prior, the posterior and the posterior expectation all
use the single grid `np.linspace(.01, 1.0, 101)`, but the ensemble of MDPs
(hence the likelihood vector) is indexed by the different grid
`np.arange(0, 1.01, .01)`; the two grids agree only at the last index
(θ = 1.0). -/
theorem inference_grid_alignment (Q : ℕ → ℝ) (i : ℕ) :
    InferenceMachine.expectedPosterior Q
      = ∑ j in Finset.range 101, Q j * ((InferenceMachine.inferGrid j : ℚ) : ℝ)
    ∧ InferenceMachine.priorUnnorm i
      = betaPdf (19/10) (19/10) ((InferenceMachine.inferGrid i : ℚ) : ℝ)
    ∧ (InferenceMachine.simsPHeads i = InferenceMachine.inferGrid i ↔ i = 100) := by
  refine ⟨rfl, rfl, ?_, ?_⟩
  · intro h
    simp only [InferenceMachine.simsPHeads, InferenceMachine.inferGrid] at h
    have h' : (i:ℚ) = 100 := by linarith
    exact_mod_cast h'
  · intro h
    subst h
    norm_num [InferenceMachine.simsPHeads, InferenceMachine.inferGrid]
